import Mathlib

/-!
# Verification of the PIAS404/proxy credential-vault bot

Shallow embedding of the repository's core components:

* `bot.py` — response classification (`ok_api`, `BestProxyAPI._pack`),
  conversation-state handling (`clear_states`, `on_btn`, `on_text`),
  credential helpers (`db_get_key`, `db_set_key`);
* `bestproxy_client.py` — `BestProxyClient.call` over the static
  `ENDPOINTS` registry of `endpoints.py`;
* `db.py` — the SQLite-backed credential store (`set_user_key`,
  `get_user_key_enc`, `delete_user`);
* `security.py` — the `CryptoBox` wrapper around Fernet authenticated
  encryption (the Fernet scheme itself is a library dependency and is
  modelled from the spec).

Python dictionaries are modelled as association lists, JSON values as an
inductive type, machine-level state (HTTP transport, SQLite rows,
Telegram `user_data`) as explicit functional state.
-/

/-- A decoded JSON value, as produced by `requests.Response.json()` /
`json.loads`.  Numbers are modelled as integers (the repository only ever
inspects the integer field `"code"`). -/
inductive JsonVal where
  | null : JsonVal
  | bool : Bool → JsonVal
  | num : Int → JsonVal
  | str : String → JsonVal
  | arr : List JsonVal → JsonVal
  | obj : List (String × JsonVal) → JsonVal

/-- Python truthiness (`bool(x)`) of a JSON value: `None`, `False`, `0`,
`""`, `[]`, `{}` are falsy, everything else truthy. -/
def JsonVal.truthy : JsonVal → Bool
  | .null => false
  | .bool b => b
  | .num n => n != 0
  | .str s => s != ""
  | .arr xs => !xs.isEmpty
  | .obj fs => !fs.isEmpty

/-- Python truthiness of a `dict.get` result (`None` for a missing key is
falsy). -/
def optTruthy : Option JsonVal → Bool
  | none => false
  | some v => v.truthy

mutual

/-- Python `repr` of a JSON value (used by `str` on containers). -/
def pyRepr : JsonVal → String
  | .null => "None"
  | .bool true => "True"
  | .bool false => "False"
  | .num n => toString n
  | .str s => "\x27" ++ s ++ "\x27"
  | .arr xs => "[" ++ pyReprList xs ++ "]"
  | .obj fs => "\x7b" ++ pyReprFields fs ++ "\x7d"

/-- Comma-separated `repr` of list elements. -/
def pyReprList : List JsonVal → String
  | [] => ""
  | [x] => pyRepr x
  | x :: xs => pyRepr x ++ ", " ++ pyReprList xs

/-- Comma-separated `repr` of dict entries. -/
def pyReprFields : List (String × JsonVal) → String
  | [] => ""
  | [(k, v)] => "\x27" ++ k ++ "\x27: " ++ pyRepr v
  | (k, v) :: fs => "\x27" ++ k ++ "\x27: " ++ pyRepr v ++ ", " ++ pyReprFields fs

end

/-- Python `str()` of a JSON value, as interpolated by an f-string. -/
def pyStr : JsonVal → String
  | .str s => s
  | v => pyRepr v

/-- Python `str()` of a `dict.get` result (`str(None) = "None"`). -/
def pyStrOpt : Option JsonVal → String
  | none => "None"
  | some v => pyStr v

/-- Python `d.get(k)` on a JSON object: first binding of `k`, `None` if absent
(dict keys are unique, so first = only). -/
def JsonVal.get? (j : JsonVal) (k : String) : Option JsonVal :=
  match j with
  | .obj fs => fs.lookup k
  | _ => none

/-- Is a JSON value a Python `dict`?  (`.get` raises `AttributeError`
otherwise.) -/
def JsonVal.isObj : JsonVal → Bool
  | .obj _ => true
  | _ => false

/-- A Python runtime exception escaping a handler. -/
inductive PyErr where
  | attributeError : PyErr
deriving DecidableEq, Repr

/-- The dict produced by `BestProxyAPI._pack` (bot.py:108-113):
`{"http": r.status_code, "json": data}`. -/
structure PackedResp where
  http : Nat
  json : JsonVal

/-- An HTTP response at the transport boundary: wire status, raw body
text, and the outcome of `r.json()` (`none` when decoding raises). -/
structure HttpResponse where
  status : Nat
  text : String
  parsed : Option JsonVal

namespace BestProxyAPI

/-- Model of `BestProxyAPI._pack` (bot.py:108-113): try `r.json()`, fall back to
`{"raw": r.text}`, and pair with the HTTP status. -/
def pack (r : HttpResponse) : PackedResp :=
  { http := r.status
    json := match r.parsed with
            | some d => d
            | none => .obj [("raw", .str r.text)] }

end BestProxyAPI

/-- Python `code == 200` on a `dict.get` result: only the integer
`200` compares equal to `200` (`None`, strings, booleans do not). -/
def isCode200 : Option JsonVal → Bool
  | some (.num n) => n = 200
  | _ => false

/-- Model of `ok_api` (bot.py:115-125).  HTTP status ≥ 400 is always a failure;
otherwise the embedded `"code"` field must equal `200`.  `j.get` on a
non-dict body raises `AttributeError` (modelled as `.error`).  The message
component is a `JsonVal` because the success branch returns
`msg or "OK"`, which need not be a string in Python. -/
def ok_api (resp : PackedResp) : Except PyErr (Bool × JsonVal) :=
  if 400 ≤ resp.http then
    .ok (false, .str ("HTTP " ++ toString resp.http))
  else
    match resp.json with
    | .obj fs =>
      let code := fs.lookup "code"
      let msg : JsonVal :=
        if optTruthy (fs.lookup "msg") then (fs.lookup "msg").getD .null
        else if optTruthy (fs.lookup "message") then (fs.lookup "message").getD .null
        else .str ""
      if isCode200 code then
        .ok (true, if msg.truthy then msg else .str "OK")
      else
        .ok (false, .str ("code=" ++ pyStrOpt code ++ " msg=" ++ pyStr msg))
    | _ => .error .attributeError

/-- One entry of the `ENDPOINTS` registry (endpoints.py):
`{"method": ..., "path": ...}`. -/
structure Endpoint where
  method : String
  path : String
deriving DecidableEq, Repr

/-- The static `ENDPOINTS` registry (endpoints.py:5-25), mapping an
operation name to its HTTP method and path. -/
def ENDPOINTS : List (String × Endpoint) :=
  [ ("status", ⟨"GET", "/api/status"⟩),
    ("proxy_list", ⟨"GET", "/api/proxy/list"⟩),
    ("proxy_rotate", ⟨"POST", "/api/proxy/rotate"⟩),
    ("traffic", ⟨"GET", "/api/traffic"⟩),
    ("whitelist_list", ⟨"GET", "/api/whitelist/list"⟩),
    ("whitelist_add", ⟨"POST", "/api/whitelist/add"⟩),
    ("whitelist_remove", ⟨"POST", "/api/whitelist/remove"⟩),
    ("subusers", ⟨"GET", "/api/subuser/list"⟩),
    ("subuser_create", ⟨"POST", "/api/subuser/create"⟩),
    ("subuser_disable", ⟨"POST", "/api/subuser/disable"⟩) ]

/-- Outcome of `requests.request`: either a wire-level response or a
raised `requests.RequestException` with its message. -/
inductive TransportOutcome where
  | resp : HttpResponse → TransportOutcome
  | exn : String → TransportOutcome

/-- The HTTP transport, as a pure oracle from (method, url) to outcome.
A test stub in the spec's sense is such a function together with the
invocation log that `BestProxyClient.call` threads through. -/
def Transport : Type := String → String → TransportOutcome

/-- The dict returned by `BestProxyClient.call` (bestproxy_client.py):
one of `{"ok": False, "error": e}`, `{"ok": ok, "status": s, "data": d}`. -/
structure CallResult where
  ok : Bool
  status : Option Nat
  data : Option JsonVal
  error : Option String

namespace BestProxyClient

/-- Model of `BestProxyClient.call` (bestproxy_client.py:21-53).  The registry
lookup, URL construction, transport call, JSON-or-raw decoding and
status normalization of the source, with the network modelled by a
`Transport` oracle and an explicit invocation log of (method, url)
pairs.  `base_url` is assumed already `rstrip("/")`-ed by `__init__`. -/
def call (base_url : String) (send : Transport) (log : List (String × String))
    (name : String) : CallResult × List (String × String) :=
  match ENDPOINTS.lookup name with
  | none => (⟨false, none, none, some ("Endpoint \x27" ++ name ++ "\x27 not configured")⟩, log)
  | some meta =>
    let url := if meta.path.startsWith "http" then meta.path else base_url ++ meta.path
    let log := log ++ [(meta.method, url)]
    match send meta.method url with
    | .exn e => (⟨false, none, none, some e⟩, log)
    | .resp r =>
      let data : JsonVal :=
        match r.parsed with
        | some d => d
        | none => .obj [("raw", .str r.text)]
      if 400 ≤ r.status then
        (⟨false, some r.status, some data, none⟩, log)
      else
        (⟨true, some r.status, some data, none⟩, log)

end BestProxyClient
/-- The pending-prompt kinds `S_WAIT_*` (bot.py:134-145), the keys of the
per-user `context.user_data` flags. -/
inductive WaitKind where
  | waitKey
  | waitAddAccounts
  | waitDelAccounts
  | waitEnAccounts
  | waitDisAccounts
  | waitChPass
  | waitChRemark
  | waitChLimit
  | waitFlowStart
  | waitStaticFilter
  | waitStateSearch
  | waitCitySearch
deriving DecidableEq, Repr

/-- The `wait_*` flags of one user's `context.user_data`, as a total
boolean valuation (an absent key and a key set to `False` are both
falsy in the source's `user_data.get(...)` tests). -/
def Flags : Type := WaitKind → Bool

/-- Model of `clear_states` (bot.py:205-212): every `wait_*` key is removed. -/
def clear_states : Flags := fun _ => false

/-- Point-update of one flag (`context.user_data[k] = b`). -/
def setFlag (f : Flags) (k : WaitKind) (b : Bool) : Flags :=
  fun k2 => if k2 = k then b else f k2

/-- The flag state holding exactly the prompt `k` (the state reached by
`clear_states` followed by `user_data[k] = True`). -/
def singleFlag (k : WaitKind) : Flags := setFlag clear_states k true

/-- Python `str.strip()`: drop leading and trailing whitespace.
Implemented structurally over the character list so that it evaluates
by reduction. -/
def pyStrip (s : String) : String :=
  ⟨((s.toList.dropWhile Char.isWhitespace).reverse.dropWhile Char.isWhitespace).reverse⟩

/-- Worker for `pySplit`: characters still to read, current token
(reversed). -/
def pySplitAux : List Char → List Char → List String
  | [], acc => if acc.isEmpty then [] else [⟨acc.reverse⟩]
  | c :: cs, acc =>
      if c.isWhitespace then
        if acc.isEmpty then pySplitAux cs [] else ⟨acc.reverse⟩ :: pySplitAux cs []
      else pySplitAux cs (c :: acc)

/-- Python `str.split()` with no separator: split on whitespace runs,
discarding empty pieces. -/
def pySplit (s : String) : List String :=
  pySplitAux s.toList []

/-- Python `str.upper()` (ASCII case mapping, as the inputs here are
country codes). -/
def pyUpper (s : String) : String :=
  ⟨s.toList.map Char.toUpper⟩

/-- Python `c in s` for a single character. -/
def pyContains (s : String) (c : Char) : Bool :=
  s.toList.contains c

/-- The effect of one `on_text` dispatch, with outbound HTTP requests
recorded as the (path, params/body) the handler passes to
`BestProxyAPI.get`/`.post` (before `app_key` injection).  Replies are
presentation and carry only the distinguishing payload. -/
inductive TextAction where
  | savedKey : String → TextAction
  | notConnected : TextAction
  | apiGet : String → List (String × JsonVal) → TextAction
  | apiPost : String → List (String × JsonVal) → TextAction
  | formatError : String → TextAction
  | menuHint : TextAction

/-- The body of the `on_text` branch for prompt kind `k` (bot.py:467-588),
applied to the stripped message text.  `jsonLoads` is the `json.loads`
oracle for the static-filter branch (`none` models a raised exception). -/
def textHandler (jsonLoads : String → Option JsonVal) (k : WaitKind) (text : String) :
    TextAction :=
  match k with
  | .waitKey => .savedKey text
  | .waitAddAccounts =>
      .apiPost "/gateway/whitelist-account/add" [("accounts", .str text), ("remark", .str "")]
  | .waitDelAccounts =>
      .apiPost "/gateway/whitelist-account/delete" [("accounts", .str text)]
  | .waitEnAccounts =>
      .apiPost "/gateway/whitelist-account/enable" [("accounts", .str text)]
  | .waitDisAccounts =>
      .apiPost "/gateway/whitelist-account/disable" [("accounts", .str text)]
  | .waitChPass =>
      match pySplit text with
      | account :: password :: _ =>
          .apiPost "/gateway/whitelist-account/change-password"
            [("account", .str (pyStrip account)), ("password", .str (pyStrip password))]
      | _ => .formatError "⚠️ Format: `username newpassword`"
  | .waitChRemark =>
      if pyContains text (Char.ofNat 124) then
        let left : List Char := text.toList.takeWhile (fun c => c ≠ Char.ofNat 124)
        let remark : List Char := text.toList.drop (left.length + 1)
        .apiPost "/gateway/whitelist-account/change-remark"
          [("account", .str (pyStrip ⟨left⟩)), ("remark", .str (pyStrip ⟨remark⟩))]
      else .formatError "⚠️ Format: `username | remark`"
  | .waitChLimit =>
      match pySplit text with
      | account :: limit :: _ =>
          match (pyStrip limit).toInt? with
          | some n =>
              .apiPost "/gateway/whitelist-account/change-limit"
                [("account", .str (pyStrip account)), ("limit", .num n)]
          | none => .formatError "⚠️ limitGB must be number"
      | _ => .formatError "⚠️ Format: `username limitGB`"
  | .waitFlowStart =>
      .apiGet "/gateway/user-usage-flow/total" [("start_time", .str text)]
  | .waitStaticFilter =>
      match jsonLoads text with
      | some (.obj fs) => .apiGet "/gateway/ip/get-static-ip" fs
      | _ => .formatError "⚠️ Please send valid JSON object."
  | .waitStateSearch =>
      .apiGet "/gateway/ip/dynamic-states/search"
        [("country_code", .str (pyUpper (pyStrip text)))]
  | .waitCitySearch =>
      match pySplit text with
      | cc :: st :: _ =>
          .apiGet "/gateway/ip/dynamic-citys/search"
            [("country_code", .str (pyUpper (pyStrip cc))), ("state", .str (pyStrip st))]
      | _ => .formatError "⚠️ Format: `country_code state` (example: `US CA`)"

/-- Model of `on_text` (bot.py:462-591): the source-ordered chain of flag tests.
`connected` is the `get_api(update) is not None` test (a stored,
decryptable key exists for the user); `rawText` is the incoming message
text before the leading `.strip()`. -/
def on_text (jsonLoads : String → Option JsonVal) (flags : Flags) (connected : Bool)
    (rawText : String) : Flags × TextAction :=
  if flags .waitKey then
    (setFlag flags .waitKey false, .savedKey (pyStrip rawText))
  else if !connected then
    (flags, .notConnected)
  else if flags .waitAddAccounts then
    (setFlag flags .waitAddAccounts false, textHandler jsonLoads .waitAddAccounts (pyStrip rawText))
  else if flags .waitDelAccounts then
    (setFlag flags .waitDelAccounts false, textHandler jsonLoads .waitDelAccounts (pyStrip rawText))
  else if flags .waitEnAccounts then
    (setFlag flags .waitEnAccounts false, textHandler jsonLoads .waitEnAccounts (pyStrip rawText))
  else if flags .waitDisAccounts then
    (setFlag flags .waitDisAccounts false, textHandler jsonLoads .waitDisAccounts (pyStrip rawText))
  else if flags .waitChPass then
    (setFlag flags .waitChPass false, textHandler jsonLoads .waitChPass (pyStrip rawText))
  else if flags .waitChRemark then
    (setFlag flags .waitChRemark false, textHandler jsonLoads .waitChRemark (pyStrip rawText))
  else if flags .waitChLimit then
    (setFlag flags .waitChLimit false, textHandler jsonLoads .waitChLimit (pyStrip rawText))
  else if flags .waitFlowStart then
    (setFlag flags .waitFlowStart false, textHandler jsonLoads .waitFlowStart (pyStrip rawText))
  else if flags .waitStateSearch then
    (setFlag flags .waitStateSearch false, textHandler jsonLoads .waitStateSearch (pyStrip rawText))
  else if flags .waitCitySearch then
    (setFlag flags .waitCitySearch false, textHandler jsonLoads .waitCitySearch (pyStrip rawText))
  else if flags .waitStaticFilter then
    (setFlag flags .waitStaticFilter false, textHandler jsonLoads .waitStaticFilter (pyStrip rawText))
  else
    (flags, .menuHint)
/-- The effect of one `on_btn` dispatch (bot.py:239-458).  API-calling
branches record the `ok_api` classification of the oracle response;
prompt-starting branches record the prompt kind they arm. -/
inductive BtnAction where
  | helpShown : BtnAction
  | prompted : WaitKind → BtnAction
  | disconnected : BtnAction
  | needConnect : BtnAction
  | backShown : BtnAction
  | menuShown : String → BtnAction
  | keyMissing : BtnAction
  | apiOk : String → JsonVal → BtnAction
  | apiFail : String → JsonVal → BtnAction
  | unknownAction : BtnAction

/-- The `callback_data` of the button that arms prompt kind `k`
(bot.py keyboards, lines 147-203). -/
def buttonData : WaitKind → String
  | .waitKey => "connect"
  | .waitAddAccounts => "acc_add"
  | .waitDelAccounts => "acc_del"
  | .waitEnAccounts => "acc_en"
  | .waitDisAccounts => "acc_dis"
  | .waitChPass => "acc_pass"
  | .waitChRemark => "acc_remark"
  | .waitChLimit => "acc_limit"
  | .waitFlowStart => "flow_custom"
  | .waitStaticFilter => "static_filter"
  | .waitStateSearch => "states_search"
  | .waitCitySearch => "cities_search"

/-- A stateless read-only API button: `api.get(path)` then `ok_api`
classification (the shape shared by `acc_list`, `flow_default`,
`states_list`, `cities_list`, `static_get`).  An `AttributeError`
raised by `ok_api` propagates out of the handler. -/
def btnApiCall (respOf : String → PackedResp) (flags : Flags) (path : String) :
    Except PyErr (Flags × BtnAction) :=
  match ok_api (respOf path) with
  | .error e => .error e
  | .ok (true, _) => .ok (flags, .apiOk path (respOf path).json)
  | .ok (false, msg) => .ok (flags, .apiFail path msg)

/-- Model of `on_btn` (bot.py:239-458): the source-ordered dispatch on
`callback_data`.  `respOf` is the HTTP oracle for the read-only API
buttons (path ↦ packed response); `connected` is the
`db_get_key(tg_id) is not None` test, which also decides the later
`get_api` re-check. -/
def on_btn (respOf : String → PackedResp) (flags : Flags) (connected : Bool)
    (data : String) : Except PyErr (Flags × BtnAction) :=
  if data = "help" then .ok (flags, .helpShown)
  else if data = "connect" then .ok (singleFlag .waitKey, .prompted .waitKey)
  else if data = "disconnect" then .ok (clear_states, .disconnected)
  else if !connected then .ok (flags, .needConnect)
  else if data = "back" then .ok (flags, .backShown)
  else if data = "acc_menu" then .ok (flags, .menuShown "acc")
  else if data = "flow_menu" then .ok (flags, .menuShown "flow")
  else if data = "loc_menu" then .ok (flags, .menuShown "loc")
  else if data = "static_menu" then .ok (flags, .menuShown "static")
  else if !connected then .ok (flags, .keyMissing)
  else if data = "acc_list" then btnApiCall respOf flags "/gateway/whitelist-account/list"
  else if data = "acc_add" then .ok (singleFlag .waitAddAccounts, .prompted .waitAddAccounts)
  else if data = "acc_del" then .ok (singleFlag .waitDelAccounts, .prompted .waitDelAccounts)
  else if data = "acc_en" then .ok (singleFlag .waitEnAccounts, .prompted .waitEnAccounts)
  else if data = "acc_dis" then .ok (singleFlag .waitDisAccounts, .prompted .waitDisAccounts)
  else if data = "acc_pass" then .ok (singleFlag .waitChPass, .prompted .waitChPass)
  else if data = "acc_remark" then .ok (singleFlag .waitChRemark, .prompted .waitChRemark)
  else if data = "acc_limit" then .ok (singleFlag .waitChLimit, .prompted .waitChLimit)
  else if data = "flow_default" then btnApiCall respOf flags "/gateway/user-usage-flow/total"
  else if data = "flow_custom" then .ok (singleFlag .waitFlowStart, .prompted .waitFlowStart)
  else if data = "states_list" then btnApiCall respOf flags "/gateway/ip/dynamic-states"
  else if data = "states_search" then .ok (singleFlag .waitStateSearch, .prompted .waitStateSearch)
  else if data = "cities_list" then btnApiCall respOf flags "/gateway/ip/dynamic-citys"
  else if data = "cities_search" then .ok (singleFlag .waitCitySearch, .prompted .waitCitySearch)
  else if data = "static_get" then btnApiCall respOf flags "/gateway/ip/get-static-ip"
  else if data = "static_filter" then .ok (singleFlag .waitStaticFilter, .prompted .waitStaticFilter)
  else .ok (flags, .unknownAction)
/-- One row of the `users` table (db.py:5-17): primary key
`tg_user_id`, ciphertext column `api_key_enc`, and the two server-set
timestamps (modelled as abstract clock readings). -/
structure UserRow where
  tg_user_id : Nat
  api_key_enc : String
  created_at : Nat
  updated_at : Nat
deriving DecidableEq, Repr

/-- The `users` table contents. -/
abbrev UsersTable : Type := List UserRow

/-- Number of rows for a given `tg_user_id`. -/
def keyCount (db : UsersTable) (u : Nat) : Nat :=
  db.countP (fun r => r.tg_user_id = u)

/-- Model of `set_user_key` (db.py:19-30): `INSERT ... ON CONFLICT(tg_user_id) DO
UPDATE SET api_key_enc=excluded.api_key_enc, updated_at=datetime(now)`.
`now` is the server clock reading for this statement. -/
def set_user_key (db : UsersTable) (u : Nat) (api_key_enc : String) (now : Nat) :
    UsersTable :=
  if db.any (fun r => r.tg_user_id = u) then
    db.map (fun r =>
      if r.tg_user_id = u then
        { r with api_key_enc := api_key_enc, updated_at := now }
      else r)
  else
    db ++ [⟨u, api_key_enc, now, now⟩]

/-- Model of `get_user_key_enc` (db.py:32-38): `SELECT api_key_enc FROM users
WHERE tg_user_id=?`, then `row[0] if row and row[0] else None` — the
stored ciphertext is returned verbatim, a missing row or falsy (empty)
ciphertext gives `None`. -/
def get_user_key_enc (db : UsersTable) (u : Nat) : Option String :=
  match db.find? (fun r => r.tg_user_id = u) with
  | some r => if r.api_key_enc ≠ "" then some r.api_key_enc else none
  | none => none

/-- Model of `delete_user` (db.py:40-45): `DELETE FROM users WHERE tg_user_id=?`. -/
def delete_user (db : UsersTable) (u : Nat) : UsersTable :=
  db.filter (fun r => !(r.tg_user_id = u))
/-- Failure of `Fernet.decrypt` (the `cryptography.fernet.InvalidToken`
surfaced by `CryptoBox.dec`, the spec's `IntegrityError`). -/
inductive IntegrityError where
  | invalidToken : IntegrityError
deriving DecidableEq, Repr

/-- Little-endian 4-byte encoding of a value below `2^32`. -/
def encode4 (n : Nat) : List Nat :=
  [n % 256, n / 256 % 256, n / 65536 % 256, n / 16777216 % 256]

/-- Decode of a 4-byte field (`0` on any other shape; `fernetDec`
validates the shape first). -/
def decode4 : List Nat → Nat
  | [a, b, c, d] => a + 256 * b + 65536 * c + 16777216 * d
  | _ => 0

/-- Modelled from the spec: the authentication tag of the Fernet token
(`cryptography.fernet` is a library dependency, absent from src/).  The
spec requires an authenticated-encryption scheme whose tag verification
fails whenever the protected bytes or the key change; HMAC-SHA256 is
idealized as a keyed checksum over the protected bytes, reduced
modulo `2^32`. -/
def tagOf (key : Nat) (body : List Nat) : Nat :=
  (key + body.sum) % 4294967296

/-- Modelled from the spec: `Fernet(key).encrypt` (absent from src/;
spec §4.1).  The token is a version byte `128`, a 4-byte fresh
nonce/IV, the keystream-masked plaintext bytes, and the authentication
tag over everything before it — "output must self-describe enough
material (nonce, auth tag) to decrypt without side-channel state". -/
def fernetEnc (key nonce : Nat) (pt : List Nat) : List Nat :=
  let body := 128 :: (encode4 nonce ++ pt.map (fun b => (b + key) % 256))
  body ++ encode4 (tagOf key body)

/-- Modelled from the spec: `Fernet(key).decrypt` (absent from src/;
spec §4.1).  Fails with `IntegrityError` when the token is malformed
(too short, a non-byte, a wrong version marker) or when the
authentication tag does not verify; "failure must never return
corrupted plaintext". -/
def fernetDec (key : Nat) (tok : List Nat) : Except IntegrityError (List Nat) :=
  if tok.length < 9 ∨ ¬ tok.all (fun b => b < 256) then
    .error .invalidToken
  else
    let body := tok.take (tok.length - 4)
    let tag := tok.drop (tok.length - 4)
    if body.head? ≠ some 128 then .error .invalidToken
    else if decode4 tag ≠ tagOf key body then .error .invalidToken
    else .ok ((body.drop 5).map (fun b => (b + 256 - key % 256) % 256))

namespace CryptoBox

/-- Model of `CryptoBox.enc` (security.py:8-9): `self.f.encrypt(plaintext.encode())`.
Strings are modelled at the byte level (the `.encode()`/`.decode()`
boundary), the fresh per-call nonce is an explicit argument. -/
def enc (key nonce : Nat) (plaintext : List Nat) : List Nat :=
  fernetEnc key nonce plaintext

/-- Model of `CryptoBox.dec` (security.py:11-12): `self.f.decrypt(ciphertext.encode())`,
propagating `InvalidToken` as `IntegrityError`. -/
def dec (key : Nat) (ciphertext : List Nat) : Except IntegrityError (List Nat) :=
  fernetDec key ciphertext

end CryptoBox
/-- One user's session state: the `user_data` wait flags plus whether a
usable credential is stored (`db_get_key(tg_id) is not None`). -/
structure BotState where
  flags : Flags
  connected : Bool

/-- Connectedness after a button dispatch: only the `disconnect` branch
(`db_delete_user`) removes the credential. -/
def updateConnBtn (c : Bool) : BtnAction → Bool
  | .disconnected => false
  | _ => c

/-- Connectedness after a text dispatch: the `wait_key` branch
(`db_set_key`) stores a credential. -/
def updateConnText (c : Bool) : TextAction → Bool
  | .savedKey _ => true
  | _ => c

/-- One `ButtonEvent`: `on_btn`, with a raised exception leaving the
user state unchanged (all mutations of `user_data` precede the `ok_api`
call in every branch). -/
def stepBtn (respOf : String → PackedResp) (s : BotState) (data : String) : BotState :=
  match on_btn respOf s.flags s.connected data with
  | .error _ => s
  | .ok (f, act) => ⟨f, updateConnBtn s.connected act⟩

/-- One `TextEvent`: `on_text`. -/
def stepText (jsonLoads : String → Option JsonVal) (s : BotState) (raw : String) : BotState :=
  let r := on_text jsonLoads s.flags s.connected raw
  ⟨r.1, updateConnText s.connected r.2⟩

/-- One `CancelEvent`: `cmd_cancel` (bot.py:233-236) runs `clear_states`. -/
def stepCancel (s : BotState) : BotState :=
  ⟨clear_states, s.connected⟩

/-- The session states reachable from a fresh session (no pending
prompt, credential either present or absent) under button, text and
cancel events. -/
inductive Reach (jsonLoads : String → Option JsonVal) (respOf : String → PackedResp) :
    BotState → Prop where
  | init (c : Bool) : Reach jsonLoads respOf ⟨clear_states, c⟩
  | btn {s : BotState} (data : String) :
      Reach jsonLoads respOf s → Reach jsonLoads respOf (stepBtn respOf s data)
  | text {s : BotState} (raw : String) :
      Reach jsonLoads respOf s → Reach jsonLoads respOf (stepText jsonLoads s raw)
  | cancel {s : BotState} :
      Reach jsonLoads respOf s → Reach jsonLoads respOf (stepCancel s)

/-- The session invariant: the wait flags hold at most one pending
prompt, and any pending prompt other than the connect-key prompt was
armed while a credential was stored. -/
def InvS (s : BotState) : Prop :=
  (∀ k1 k2, s.flags k1 = true → s.flags k2 = true → k1 = k2) ∧
  (∀ k, k ≠ .waitKey → s.flags k = true → s.connected = true)
/-! ## Theorems -/

section ClaimC8

/-- C8: `call` with an operation name absent from the static `ENDPOINTS`
registry returns an immediate local failure (`ok = false`, error naming
the unconfigured operation, no status, no data), and the transport log
is unchanged — no network call is attempted. -/
theorem call_unknown_operation_local_failure
    (base : String) (send : Transport) (log : List (String × String)) (name : String)
    (h : ENDPOINTS.lookup name = none) :
    BestProxyClient.call base send log name
      = (⟨false, none, none, some ("Endpoint \x27" ++ name ++ "\x27 not configured")⟩, log) := by
  simp [BestProxyClient.call, h]

/-- Witness for C8: `call("nonexistent_op")` on a stub transport with an
empty log fails locally and records zero invocations. -/
theorem call_unknown_operation_local_failure_witness :
    ENDPOINTS.lookup "nonexistent_op" = none ∧
    BestProxyClient.call "https://api.example.com" (fun _ _ => .exn "unused") [] "nonexistent_op"
      = (⟨false, none, none, some ("Endpoint \x27nonexistent_op\x27 not configured")⟩, []) :=
  ⟨rfl, call_unknown_operation_local_failure "https://api.example.com"
    (fun _ _ => .exn "unused") [] "nonexistent_op" rfl⟩

end ClaimC8
section ClaimC9

/-- C9: on transport success the client attempts JSON decoding, and a
body that fails to decode is carried as the raw text payload instead of
failing the call: `_pack` wraps it as `{"raw": text}`, and
`BestProxyClient.call` stores the same wrapping in `data`, keeps
`error` empty, and still derives `ok` from the HTTP status alone. -/
theorem decode_failure_carries_raw_text
    (r : HttpResponse) (base : String) (send : Transport)
    (log : List (String × String)) (name : String) (meta : Endpoint)
    (hparse : r.parsed = none)
    (hep : ENDPOINTS.lookup name = some meta)
    (hsend : ∀ mth url, send mth url = .resp r) :
    BestProxyAPI.pack r = ⟨r.status, .obj [("raw", .str r.text)]⟩ ∧
    ((BestProxyClient.call base send log name).1).data = some (.obj [("raw", .str r.text)]) ∧
    ((BestProxyClient.call base send log name).1).error = none ∧
    ((BestProxyClient.call base send log name).1).ok = !decide (400 ≤ r.status) := by
  refine ⟨?_, ?_⟩
  · simp [BestProxyAPI.pack, hparse]
  · simp only [BestProxyClient.call, hep, hsend, hparse]
    by_cases hs : 400 ≤ r.status <;> simp [hs]

/-- Witness for C9: an HTTP 200 response whose body `<html>` fails to
decode is packed as `{"raw": "<html>"}` and the call still succeeds. -/
theorem decode_failure_carries_raw_text_witness :
    BestProxyAPI.pack ⟨200, "<html>", none⟩ = ⟨200, .obj [("raw", .str "<html>")]⟩ ∧
    ((BestProxyClient.call "https://api.example.com"
        (fun _ _ => .resp ⟨200, "<html>", none⟩) [] "status").1).data
      = some (.obj [("raw", .str "<html>")]) ∧
    ((BestProxyClient.call "https://api.example.com"
        (fun _ _ => .resp ⟨200, "<html>", none⟩) [] "status").1).error = none ∧
    ((BestProxyClient.call "https://api.example.com"
        (fun _ _ => .resp ⟨200, "<html>", none⟩) [] "status").1).ok
      = !decide (400 ≤ (200 : Nat)) :=
  decode_failure_carries_raw_text ⟨200, "<html>", none⟩ "https://api.example.com"
    (fun _ _ => .resp ⟨200, "<html>", none⟩) [] "status" ⟨"GET", "/api/status"⟩
    rfl rfl (fun _ _ => rfl)

end ClaimC9
section ClaimC7

/-- C7: whatever wait flags a connected user currently has (in
particular `AwaitingInput(k1)`), pressing the menu button for kind `k2`
leaves exactly the single flag `k2` set (every prompt button runs
`clear_states` before arming its own flag), and the resulting flag
state holds `k` exactly when `k = k2` — no trace of `k1`, no stacking. -/
theorem prompt_start_replaces_pending
    (respOf : String → PackedResp) (flags : Flags) (k1 k2 : WaitKind) :
    on_btn respOf flags true (buttonData k2) = .ok (singleFlag k2, .prompted k2) ∧
    singleFlag k2 k1 = decide (k1 = k2) := by
  constructor
  · cases k2 <;> rfl
  · by_cases h : k1 = k2 <;> simp [singleFlag, setFlag, clear_states, h]

end ClaimC7

section ClaimC2

/-- C2: the Credential Store's read operation returns the stored
ciphertext verbatim when a credential row with a nonempty
`api_key_enc` exists for the user, returns `none` when no row exists,
and every value it ever returns is exactly an `api_key_enc` column of a
stored row — the store performs no decryption and never produces
plaintext. -/
theorem get_returns_stored_ciphertext
    (db : UsersTable) (u : Nat) (row : UserRow)
    (hfind : db.find? (fun r => r.tg_user_id = u) = some row)
    (hne : row.api_key_enc ≠ "") :
    get_user_key_enc db u = some row.api_key_enc ∧
    (∀ db2 : UsersTable, (∀ r ∈ db2, r.tg_user_id ≠ u) → get_user_key_enc db2 u = none) ∧
    (∀ (db2 : UsersTable) (s : String), get_user_key_enc db2 u = some s →
      ∃ r ∈ db2, r.tg_user_id = u ∧ r.api_key_enc = s) := by
  refine ⟨?_, ?_, ?_⟩
  · simp [get_user_key_enc, hfind, hne]
  · intro db2 habs
    have : db2.find? (fun r => r.tg_user_id = u) = none := by
      rw [List.find?_eq_none]
      intro r hr
      simp [habs r hr]
    simp [get_user_key_enc, this]
  · intro db2 s hget
    unfold get_user_key_enc at hget
    cases hfind2 : db2.find? (fun r => r.tg_user_id = u) with
    | none => rw [hfind2] at hget; simp at hget
    | some r =>
      rw [hfind2] at hget
      by_cases hr : r.api_key_enc ≠ "" <;> simp [hr] at hget
      refine ⟨r, List.mem_of_find?_eq_some hfind2, ?_, hget⟩
      have := List.find?_some hfind2
      simpa using this

/-- Witness for C2 at a one-row store. -/
theorem get_returns_stored_ciphertext_witness :
    get_user_key_enc [⟨7, "gAAAAAB-ct", 0, 0⟩] 7 = some "gAAAAAB-ct" ∧
    (∀ db2 : UsersTable, (∀ r ∈ db2, r.tg_user_id ≠ 7) → get_user_key_enc db2 7 = none) ∧
    (∀ (db2 : UsersTable) (s : String), get_user_key_enc db2 7 = some s →
      ∃ r ∈ db2, r.tg_user_id = 7 ∧ r.api_key_enc = s) :=
  get_returns_stored_ciphertext [⟨7, "gAAAAAB-ct", 0, 0⟩] 7 ⟨7, "gAAAAAB-ct", 0, 0⟩
    (by decide) (by decide)

end ClaimC2
section ClaimC1

/-- C1: an HTTP status ≥ 400 yields `success=false` regardless of body,
both in `ok_api` and in `BestProxyClient.call`; a sub-400 response whose
decoded body carries a numeric `"code" ≠ 200` also yields
`success=false`, with the provider-supplied `"msg"` surfaced as the
tail of the returned message; concretely HTTP 200 with
`{"code": 401, "msg": "bad key"}` gives `(False, "code=401 msg=bad key")`. -/
theorem two_layer_failure_classification
    (resp1 resp2 : PackedResp) (fs : List (String × JsonVal)) (n : Int) (m : String)
    (r : HttpResponse) (base : String) (send : Transport)
    (log : List (String × String)) (name : String) (meta : Endpoint)
    (h1 : 400 ≤ resp1.http)
    (h2 : resp2.http < 400)
    (hfs : resp2.json = .obj fs)
    (hcode : fs.lookup "code" = some (.num n))
    (hn : n ≠ 200)
    (hmsg : fs.lookup "msg" = some (.str m))
    (hep : ENDPOINTS.lookup name = some meta)
    (hsend : ∀ mth url, send mth url = .resp r)
    (hst : 400 ≤ r.status) :
    (∃ s, ok_api resp1 = .ok (false, .str s)) ∧
    (∃ pre, ok_api resp2 = .ok (false, .str (pre ++ m))) ∧
    ok_api ⟨200, .obj [("code", .num 401), ("msg", .str "bad key")]⟩
      = .ok (false, .str "code=401 msg=bad key") ∧
    ((BestProxyClient.call base send log name).1).ok = false := by
  refine ⟨⟨"HTTP " ++ toString resp1.http, by simp [ok_api, h1]⟩, ?_, rfl, ?_⟩
  · have hlt : ¬ 400 ≤ resp2.http := by omega
    by_cases hm : m = ""
    · refine ⟨"code=" ++ pyStrOpt (some (.num n)) ++ " msg=" ++
        pyStr (if optTruthy (fs.lookup "message") then (fs.lookup "message").getD .null
               else .str ""), ?_⟩
      subst hm
      simp [ok_api, hfs, hlt, hcode, hmsg, isCode200, hn, optTruthy, JsonVal.truthy]
    · refine ⟨"code=" ++ pyStrOpt (some (.num n)) ++ " msg=", ?_⟩
      simp [ok_api, hfs, hlt, hcode, hmsg, isCode200, hn, optTruthy, JsonVal.truthy, hm,
        pyStr]
  · simp only [BestProxyClient.call, hep, hsend]
    simp [hst]

end ClaimC1
/-- Witness for C1 at HTTP 500, and at HTTP 200 with
`{"code": 401, "msg": "bad key"}`, against a stub transport answering 403. -/
theorem two_layer_failure_classification_witness :
    (∃ s, ok_api ⟨500, .null⟩ = .ok (false, .str s)) ∧
    (∃ pre, ok_api ⟨200, .obj [("code", .num 401), ("msg", .str "bad key")]⟩
      = .ok (false, .str (pre ++ "bad key"))) ∧
    ok_api ⟨200, .obj [("code", .num 401), ("msg", .str "bad key")]⟩
      = .ok (false, .str "code=401 msg=bad key") ∧
    ((BestProxyClient.call "https://api.example.com"
        (fun _ _ => .resp ⟨403, "denied", none⟩) [] "status").1).ok = false :=
  two_layer_failure_classification ⟨500, .null⟩
    ⟨200, .obj [("code", .num 401), ("msg", .str "bad key")]⟩
    [("code", .num 401), ("msg", .str "bad key")] 401 "bad key"
    ⟨403, "denied", none⟩ "https://api.example.com"
    (fun _ _ => .resp ⟨403, "denied", none⟩) [] "status" ⟨"GET", "/api/status"⟩
    (by decide) (by decide) rfl rfl (by decide) rfl rfl (fun _ _ => rfl) (by decide)
section ClaimC10

/-- Counterexample to C10 as stated: an HTTP 200 response whose body
decodes to the JSON array `[]` lacks a numeric `"code"` field, yet
`ok_api` does not classify it as a logical failure with a `code=None`
message — `j.get` on a non-dict raises `AttributeError`. -/
theorem ok_api_nondict_raises :
    ok_api ⟨200, .arr []⟩ = .error .attributeError ∧
    ok_api ⟨200, .arr []⟩ ≠ .ok (false, .str "code=None msg=") := by
  refine ⟨rfl, ?_⟩
  simp [ok_api]

/-- C10 (amended): `ok_api` reports success only when the decoded body
is a dict whose `"code"` field is the number `200`; a sub-400 response
whose body is a dict lacking a `"code"` field is a logical failure
whose message starts `code=None msg=`; in particular a sub-400 response
whose body fails to decode, wrapped by `_pack` as `{"raw": text}`, is
classified `(False, "code=None msg=")`; a sub-400 response whose body
decodes to a non-dict instead raises `AttributeError`. -/
theorem ok_api_success_requires_code200
    (resp respn respa : PackedResp) (fsn : List (String × JsonVal)) (v : JsonVal)
    (st : Nat) (t : String)
    (hok : ok_api resp = .ok (true, v))
    (h2 : respn.http < 400)
    (hfs : respn.json = .obj fsn)
    (hnone : fsn.lookup "code" = none)
    (h3 : respa.http < 400)
    (hna : respa.json.isObj = false)
    (hst : st < 400) :
    resp.json.get? "code" = some (.num 200) ∧
    (∃ rest, ok_api respn = .ok (false, .str ("code=None msg=" ++ rest))) ∧
    ok_api (BestProxyAPI.pack ⟨st, t, none⟩) = .ok (false, .str "code=None msg=") ∧
    ok_api respa = .error .attributeError := by
  refine ⟨?_, ?_, ?_, ?_⟩
  · unfold ok_api at hok
    split at hok
    · simp at hok
    · rename_i hnele
      cases hj : resp.json <;> rw [hj] at hok <;> try simp at hok
      rename_i fs
      by_cases hc : isCode200 (fs.lookup "code") = true
      · cases hcc : fs.lookup "code" with
        | none => rw [hcc] at hc; simp [isCode200] at hc
        | some jv =>
          cases jv <;> rw [hcc] at hc <;> simp [isCode200] at hc
          rename_i nn
          simp [JsonVal.get?, hj, hcc, hc]
      · simp [hc] at hok
  · have hlt : ¬ 400 ≤ respn.http := by omega
    simp only [ok_api, hfs, if_neg hlt, hnone, isCode200]
    rw [show (("code=" ++ pyStrOpt none) ++ " msg=") = "code=None msg=" from rfl]
    exact ⟨_, rfl⟩
  · unfold ok_api
    split
    · rename_i hge
      simp [BestProxyAPI.pack] at hge
      omega
    · rfl
  · unfold ok_api
    split
    · omega
    · cases hj : respa.json <;> simp_all [JsonVal.isObj]

end ClaimC10
/-- Witness for C10 (amended) at concrete responses: a success body
`{"code": 200}`, a dict body without `"code"`, a non-decodable body,
and a JSON-array body. -/
theorem ok_api_success_requires_code200_witness :
    (⟨200, .obj [("code", .num 200)]⟩ : PackedResp).json.get? "code" = some (.num 200) ∧
    (∃ rest, ok_api ⟨200, .obj [("msg", .str "x")]⟩
      = .ok (false, .str ("code=None msg=" ++ rest))) ∧
    ok_api (BestProxyAPI.pack ⟨200, "<html>", none⟩) = .ok (false, .str "code=None msg=") ∧
    ok_api ⟨200, .arr []⟩ = .error .attributeError :=
  ok_api_success_requires_code200 ⟨200, .obj [("code", .num 200)]⟩
    ⟨200, .obj [("msg", .str "x")]⟩ ⟨200, .arr []⟩ [("msg", .str "x")] (.str "OK")
    200 "<html>" rfl (by decide) rfl rfl (by decide) rfl (by decide)
section ClaimC6

/-- After an upsert, the first row found for `u` carries the new
ciphertext and the new `updated_at`. -/
theorem find?_set_user_key (db : UsersTable) (u : Nat) (s : String) (t : Nat) :
    ∃ r0, (set_user_key db u s t).find? (fun r => r.tg_user_id = u) = some r0 ∧
      r0.tg_user_id = u ∧ r0.api_key_enc = s ∧ r0.updated_at = t := by
  unfold set_user_key
  by_cases h : db.any (fun r => r.tg_user_id = u) = true
  · rw [if_pos h]
    induction db with
    | nil => simp at h
    | cons hd tl ih =>
      by_cases hhd : hd.tg_user_id = u
      · refine ⟨{ hd with api_key_enc := s, updated_at := t }, ?_, by simpa using hhd, rfl, rfl⟩
        simp [List.find?_cons, hhd]
      · have htl : tl.any (fun r => r.tg_user_id = u) = true := by
          simpa [List.any_cons, hhd] using h
        obtain ⟨r0, hr0, h1, h2, h3⟩ := ih htl
        exact ⟨r0, by simpa [List.find?_cons, hhd] using hr0, h1, h2, h3⟩
  · rw [if_neg h]
    have hnone : db.find? (fun r => r.tg_user_id = u) = none := by
      rw [List.find?_eq_none]
      intro r hr hc
      exact h (List.any_eq_true.mpr ⟨r, hr, hc⟩)
    refine ⟨⟨u, s, t, t⟩, ?_, rfl, rfl, rfl⟩
    rw [List.find?_append, hnone]
    simp [List.find?_cons]

/-- An upsert leaves exactly one row for `u` whenever the primary-key
invariant held before. -/
theorem keyCount_set_user_key (db : UsersTable) (u : Nat) (s : String) (t : Nat)
    (hinv : keyCount db u ≤ 1) :
    keyCount (set_user_key db u s t) u = 1 := by
  unfold set_user_key keyCount
  by_cases h : db.any (fun r => r.tg_user_id = u) = true
  · rw [if_pos h]
    have hmap : (db.map (fun r =>
        if r.tg_user_id = u then { r with api_key_enc := s, updated_at := t } else r)).countP
          (fun r => r.tg_user_id = u) = db.countP (fun r => r.tg_user_id = u) := by
      rw [List.countP_map]
      apply List.countP_congr
      intro r _
      by_cases hr : r.tg_user_id = u <;> simp [hr]
    rw [hmap]
    obtain ⟨r, hr, hpr⟩ := List.any_eq_true.mp h
    have hpos : 0 < db.countP (fun r => r.tg_user_id = u) :=
      List.countP_pos_iff.mpr ⟨r, hr, hpr⟩
    have := hinv
    unfold keyCount at this
    omega
  · rw [if_neg h]
    have hzero : db.countP (fun r => r.tg_user_id = u) = 0 := by
      rw [List.countP_eq_zero]
      intro r hr hc
      exact h (List.any_eq_true.mpr ⟨r, hr, hc⟩)
    rw [List.countP_append, hzero]
    simp

/-- C6: `put` has upsert semantics — starting from any store satisfying
the primary-key invariant, `put(u, a); put(u, b)` makes `get(u)` return
`b`, leaves exactly one row for `u`, does not grow the table on the
second write (overwrite, not insert), and the row for `u` carries the
new ciphertext and the new `updated_at`. -/
theorem put_put_get_upsert (db : UsersTable) (u : Nat) (a b : String) (t1 t2 : Nat)
    (hinv : keyCount db u ≤ 1) (hb : b ≠ "") :
    get_user_key_enc (set_user_key (set_user_key db u a t1) u b t2) u = some b ∧
    keyCount (set_user_key (set_user_key db u a t1) u b t2) u = 1 ∧
    (set_user_key (set_user_key db u a t1) u b t2).length
      = (set_user_key db u a t1).length ∧
    (∃ r0, (set_user_key (set_user_key db u a t1) u b t2).find?
        (fun r => r.tg_user_id = u) = some r0 ∧
      r0.api_key_enc = b ∧ r0.updated_at = t2) := by
  obtain ⟨r0, hfind, hid, henc, hupd⟩ :=
    find?_set_user_key (set_user_key db u a t1) u b t2
  have hc1 : keyCount (set_user_key db u a t1) u = 1 :=
    keyCount_set_user_key db u a t1 hinv
  have hc2 : keyCount (set_user_key (set_user_key db u a t1) u b t2) u = 1 :=
    keyCount_set_user_key _ u b t2 (by omega)
  refine ⟨?_, hc2, ?_, ⟨r0, hfind, henc, hupd⟩⟩
  · simp only [get_user_key_enc, hfind]
    rw [if_pos (by simpa [henc] using hb), henc]
  · have hany : (set_user_key db u a t1).any (fun r => r.tg_user_id = u) = true := by
      have hpos : 0 < keyCount (set_user_key db u a t1) u := by omega
      unfold keyCount at hpos
      obtain ⟨r, hr, hpr⟩ := List.countP_pos_iff.mp hpos
      exact List.any_eq_true.mpr ⟨r, hr, hpr⟩
    conv in set_user_key (set_user_key db u a t1) u b t2 => rw [set_user_key, if_pos hany]
    simp

/-- Witness for C6 starting from the empty store. -/
theorem put_put_get_upsert_witness :
    get_user_key_enc (set_user_key (set_user_key [] 7 "ctA" 1) 7 "ctB" 2) 7 = some "ctB" ∧
    keyCount (set_user_key (set_user_key [] 7 "ctA" 1) 7 "ctB" 2) 7 = 1 ∧
    (set_user_key (set_user_key [] 7 "ctA" 1) 7 "ctB" 2).length
      = (set_user_key [] 7 "ctA" 1).length ∧
    (∃ r0, (set_user_key (set_user_key [] 7 "ctA" 1) 7 "ctB" 2).find?
        (fun r => r.tg_user_id = 7) = some r0 ∧
      r0.api_key_enc = "ctB" ∧ r0.updated_at = 2) :=
  put_put_get_upsert [] 7 "ctA" "ctB" 1 2 (by decide) (by decide)

end ClaimC6
section ClaimC3

/-- Clearing the armed flag of a single-prompt state yields the empty
flag state. -/
theorem setFlag_singleFlag_false (k : WaitKind) :
    setFlag (singleFlag k) k false = clear_states := by
  funext k2
  by_cases h : k2 = k <;> simp [setFlag, singleFlag, clear_states, h]

/-- Button dispatch touches the wait flags in only three ways: it keeps
them, clears them, or arms a single prompt — and a prompt other than
the connect-key one is armed only while connected.  The connectedness
update never turns a kept flag state into a disconnected one. -/
theorem on_btn_inv (respOf : String → PackedResp) (flags : Flags) (c : Bool)
    (data : String) (f : Flags) (act : BtnAction)
    (h : on_btn respOf flags c data = .ok (f, act)) :
    (f = flags ∧ updateConnBtn c act = c) ∨ f = clear_states ∨
    (∃ k, f = singleFlag k ∧ updateConnBtn c act = c ∧ (k = .waitKey ∨ c = true)) := by
  delta on_btn at h
  by_cases hx1 : data = "help"
  · rw [if_pos hx1] at h
    (simp only [Except.ok.injEq, Prod.mk.injEq] at h; obtain ⟨hf, ha⟩ := h; subst hf; subst ha; first | exact Or.inl ⟨rfl, rfl⟩ | exact Or.inr (Or.inl rfl) | exact Or.inr (Or.inr ⟨_, rfl, rfl, Or.inl rfl⟩) | exact Or.inr (Or.inr ⟨_, rfl, rfl, Or.inr (by simp_all)⟩))
  rw [if_neg hx1] at h
  by_cases hx2 : data = "connect"
  · rw [if_pos hx2] at h
    (simp only [Except.ok.injEq, Prod.mk.injEq] at h; obtain ⟨hf, ha⟩ := h; subst hf; subst ha; first | exact Or.inl ⟨rfl, rfl⟩ | exact Or.inr (Or.inl rfl) | exact Or.inr (Or.inr ⟨_, rfl, rfl, Or.inl rfl⟩) | exact Or.inr (Or.inr ⟨_, rfl, rfl, Or.inr (by simp_all)⟩))
  rw [if_neg hx2] at h
  by_cases hx3 : data = "disconnect"
  · rw [if_pos hx3] at h
    (simp only [Except.ok.injEq, Prod.mk.injEq] at h; obtain ⟨hf, ha⟩ := h; subst hf; subst ha; first | exact Or.inl ⟨rfl, rfl⟩ | exact Or.inr (Or.inl rfl) | exact Or.inr (Or.inr ⟨_, rfl, rfl, Or.inl rfl⟩) | exact Or.inr (Or.inr ⟨_, rfl, rfl, Or.inr (by simp_all)⟩))
  rw [if_neg hx3] at h
  by_cases hx4 : (!c) = true
  · rw [if_pos hx4] at h
    (simp only [Except.ok.injEq, Prod.mk.injEq] at h; obtain ⟨hf, ha⟩ := h; subst hf; subst ha; first | exact Or.inl ⟨rfl, rfl⟩ | exact Or.inr (Or.inl rfl) | exact Or.inr (Or.inr ⟨_, rfl, rfl, Or.inl rfl⟩) | exact Or.inr (Or.inr ⟨_, rfl, rfl, Or.inr (by simp_all)⟩))
  rw [if_neg hx4] at h
  by_cases hx5 : data = "back"
  · rw [if_pos hx5] at h
    (simp only [Except.ok.injEq, Prod.mk.injEq] at h; obtain ⟨hf, ha⟩ := h; subst hf; subst ha; first | exact Or.inl ⟨rfl, rfl⟩ | exact Or.inr (Or.inl rfl) | exact Or.inr (Or.inr ⟨_, rfl, rfl, Or.inl rfl⟩) | exact Or.inr (Or.inr ⟨_, rfl, rfl, Or.inr (by simp_all)⟩))
  rw [if_neg hx5] at h
  by_cases hx6 : data = "acc_menu"
  · rw [if_pos hx6] at h
    (simp only [Except.ok.injEq, Prod.mk.injEq] at h; obtain ⟨hf, ha⟩ := h; subst hf; subst ha; first | exact Or.inl ⟨rfl, rfl⟩ | exact Or.inr (Or.inl rfl) | exact Or.inr (Or.inr ⟨_, rfl, rfl, Or.inl rfl⟩) | exact Or.inr (Or.inr ⟨_, rfl, rfl, Or.inr (by simp_all)⟩))
  rw [if_neg hx6] at h
  by_cases hx7 : data = "flow_menu"
  · rw [if_pos hx7] at h
    (simp only [Except.ok.injEq, Prod.mk.injEq] at h; obtain ⟨hf, ha⟩ := h; subst hf; subst ha; first | exact Or.inl ⟨rfl, rfl⟩ | exact Or.inr (Or.inl rfl) | exact Or.inr (Or.inr ⟨_, rfl, rfl, Or.inl rfl⟩) | exact Or.inr (Or.inr ⟨_, rfl, rfl, Or.inr (by simp_all)⟩))
  rw [if_neg hx7] at h
  by_cases hx8 : data = "loc_menu"
  · rw [if_pos hx8] at h
    (simp only [Except.ok.injEq, Prod.mk.injEq] at h; obtain ⟨hf, ha⟩ := h; subst hf; subst ha; first | exact Or.inl ⟨rfl, rfl⟩ | exact Or.inr (Or.inl rfl) | exact Or.inr (Or.inr ⟨_, rfl, rfl, Or.inl rfl⟩) | exact Or.inr (Or.inr ⟨_, rfl, rfl, Or.inr (by simp_all)⟩))
  rw [if_neg hx8] at h
  by_cases hx9 : data = "static_menu"
  · rw [if_pos hx9] at h
    (simp only [Except.ok.injEq, Prod.mk.injEq] at h; obtain ⟨hf, ha⟩ := h; subst hf; subst ha; first | exact Or.inl ⟨rfl, rfl⟩ | exact Or.inr (Or.inl rfl) | exact Or.inr (Or.inr ⟨_, rfl, rfl, Or.inl rfl⟩) | exact Or.inr (Or.inr ⟨_, rfl, rfl, Or.inr (by simp_all)⟩))
  rw [if_neg hx9] at h
  by_cases hx10 : (!c) = true
  · rw [if_pos hx10] at h
    (simp only [Except.ok.injEq, Prod.mk.injEq] at h; obtain ⟨hf, ha⟩ := h; subst hf; subst ha; first | exact Or.inl ⟨rfl, rfl⟩ | exact Or.inr (Or.inl rfl) | exact Or.inr (Or.inr ⟨_, rfl, rfl, Or.inl rfl⟩) | exact Or.inr (Or.inr ⟨_, rfl, rfl, Or.inr (by simp_all)⟩))
  rw [if_neg hx10] at h
  by_cases hx11 : data = "acc_list"
  · rw [if_pos hx11] at h
    (delta btnApiCall at h; split at h <;> first | (simp only [Except.ok.injEq, Prod.mk.injEq] at h; obtain ⟨hf, ha⟩ := h; subst hf; subst ha; exact Or.inl ⟨rfl, rfl⟩) | simp at h)
  rw [if_neg hx11] at h
  by_cases hx12 : data = "acc_add"
  · rw [if_pos hx12] at h
    (simp only [Except.ok.injEq, Prod.mk.injEq] at h; obtain ⟨hf, ha⟩ := h; subst hf; subst ha; first | exact Or.inl ⟨rfl, rfl⟩ | exact Or.inr (Or.inl rfl) | exact Or.inr (Or.inr ⟨_, rfl, rfl, Or.inl rfl⟩) | exact Or.inr (Or.inr ⟨_, rfl, rfl, Or.inr (by simp_all)⟩))
  rw [if_neg hx12] at h
  by_cases hx13 : data = "acc_del"
  · rw [if_pos hx13] at h
    (simp only [Except.ok.injEq, Prod.mk.injEq] at h; obtain ⟨hf, ha⟩ := h; subst hf; subst ha; first | exact Or.inl ⟨rfl, rfl⟩ | exact Or.inr (Or.inl rfl) | exact Or.inr (Or.inr ⟨_, rfl, rfl, Or.inl rfl⟩) | exact Or.inr (Or.inr ⟨_, rfl, rfl, Or.inr (by simp_all)⟩))
  rw [if_neg hx13] at h
  by_cases hx14 : data = "acc_en"
  · rw [if_pos hx14] at h
    (simp only [Except.ok.injEq, Prod.mk.injEq] at h; obtain ⟨hf, ha⟩ := h; subst hf; subst ha; first | exact Or.inl ⟨rfl, rfl⟩ | exact Or.inr (Or.inl rfl) | exact Or.inr (Or.inr ⟨_, rfl, rfl, Or.inl rfl⟩) | exact Or.inr (Or.inr ⟨_, rfl, rfl, Or.inr (by simp_all)⟩))
  rw [if_neg hx14] at h
  by_cases hx15 : data = "acc_dis"
  · rw [if_pos hx15] at h
    (simp only [Except.ok.injEq, Prod.mk.injEq] at h; obtain ⟨hf, ha⟩ := h; subst hf; subst ha; first | exact Or.inl ⟨rfl, rfl⟩ | exact Or.inr (Or.inl rfl) | exact Or.inr (Or.inr ⟨_, rfl, rfl, Or.inl rfl⟩) | exact Or.inr (Or.inr ⟨_, rfl, rfl, Or.inr (by simp_all)⟩))
  rw [if_neg hx15] at h
  by_cases hx16 : data = "acc_pass"
  · rw [if_pos hx16] at h
    (simp only [Except.ok.injEq, Prod.mk.injEq] at h; obtain ⟨hf, ha⟩ := h; subst hf; subst ha; first | exact Or.inl ⟨rfl, rfl⟩ | exact Or.inr (Or.inl rfl) | exact Or.inr (Or.inr ⟨_, rfl, rfl, Or.inl rfl⟩) | exact Or.inr (Or.inr ⟨_, rfl, rfl, Or.inr (by simp_all)⟩))
  rw [if_neg hx16] at h
  by_cases hx17 : data = "acc_remark"
  · rw [if_pos hx17] at h
    (simp only [Except.ok.injEq, Prod.mk.injEq] at h; obtain ⟨hf, ha⟩ := h; subst hf; subst ha; first | exact Or.inl ⟨rfl, rfl⟩ | exact Or.inr (Or.inl rfl) | exact Or.inr (Or.inr ⟨_, rfl, rfl, Or.inl rfl⟩) | exact Or.inr (Or.inr ⟨_, rfl, rfl, Or.inr (by simp_all)⟩))
  rw [if_neg hx17] at h
  by_cases hx18 : data = "acc_limit"
  · rw [if_pos hx18] at h
    (simp only [Except.ok.injEq, Prod.mk.injEq] at h; obtain ⟨hf, ha⟩ := h; subst hf; subst ha; first | exact Or.inl ⟨rfl, rfl⟩ | exact Or.inr (Or.inl rfl) | exact Or.inr (Or.inr ⟨_, rfl, rfl, Or.inl rfl⟩) | exact Or.inr (Or.inr ⟨_, rfl, rfl, Or.inr (by simp_all)⟩))
  rw [if_neg hx18] at h
  by_cases hx19 : data = "flow_default"
  · rw [if_pos hx19] at h
    (delta btnApiCall at h; split at h <;> first | (simp only [Except.ok.injEq, Prod.mk.injEq] at h; obtain ⟨hf, ha⟩ := h; subst hf; subst ha; exact Or.inl ⟨rfl, rfl⟩) | simp at h)
  rw [if_neg hx19] at h
  by_cases hx20 : data = "flow_custom"
  · rw [if_pos hx20] at h
    (simp only [Except.ok.injEq, Prod.mk.injEq] at h; obtain ⟨hf, ha⟩ := h; subst hf; subst ha; first | exact Or.inl ⟨rfl, rfl⟩ | exact Or.inr (Or.inl rfl) | exact Or.inr (Or.inr ⟨_, rfl, rfl, Or.inl rfl⟩) | exact Or.inr (Or.inr ⟨_, rfl, rfl, Or.inr (by simp_all)⟩))
  rw [if_neg hx20] at h
  by_cases hx21 : data = "states_list"
  · rw [if_pos hx21] at h
    (delta btnApiCall at h; split at h <;> first | (simp only [Except.ok.injEq, Prod.mk.injEq] at h; obtain ⟨hf, ha⟩ := h; subst hf; subst ha; exact Or.inl ⟨rfl, rfl⟩) | simp at h)
  rw [if_neg hx21] at h
  by_cases hx22 : data = "states_search"
  · rw [if_pos hx22] at h
    (simp only [Except.ok.injEq, Prod.mk.injEq] at h; obtain ⟨hf, ha⟩ := h; subst hf; subst ha; first | exact Or.inl ⟨rfl, rfl⟩ | exact Or.inr (Or.inl rfl) | exact Or.inr (Or.inr ⟨_, rfl, rfl, Or.inl rfl⟩) | exact Or.inr (Or.inr ⟨_, rfl, rfl, Or.inr (by simp_all)⟩))
  rw [if_neg hx22] at h
  by_cases hx23 : data = "cities_list"
  · rw [if_pos hx23] at h
    (delta btnApiCall at h; split at h <;> first | (simp only [Except.ok.injEq, Prod.mk.injEq] at h; obtain ⟨hf, ha⟩ := h; subst hf; subst ha; exact Or.inl ⟨rfl, rfl⟩) | simp at h)
  rw [if_neg hx23] at h
  by_cases hx24 : data = "cities_search"
  · rw [if_pos hx24] at h
    (simp only [Except.ok.injEq, Prod.mk.injEq] at h; obtain ⟨hf, ha⟩ := h; subst hf; subst ha; first | exact Or.inl ⟨rfl, rfl⟩ | exact Or.inr (Or.inl rfl) | exact Or.inr (Or.inr ⟨_, rfl, rfl, Or.inl rfl⟩) | exact Or.inr (Or.inr ⟨_, rfl, rfl, Or.inr (by simp_all)⟩))
  rw [if_neg hx24] at h
  by_cases hx25 : data = "static_get"
  · rw [if_pos hx25] at h
    (delta btnApiCall at h; split at h <;> first | (simp only [Except.ok.injEq, Prod.mk.injEq] at h; obtain ⟨hf, ha⟩ := h; subst hf; subst ha; exact Or.inl ⟨rfl, rfl⟩) | simp at h)
  rw [if_neg hx25] at h
  by_cases hx26 : data = "static_filter"
  · rw [if_pos hx26] at h
    (simp only [Except.ok.injEq, Prod.mk.injEq] at h; obtain ⟨hf, ha⟩ := h; subst hf; subst ha; first | exact Or.inl ⟨rfl, rfl⟩ | exact Or.inr (Or.inl rfl) | exact Or.inr (Or.inr ⟨_, rfl, rfl, Or.inl rfl⟩) | exact Or.inr (Or.inr ⟨_, rfl, rfl, Or.inr (by simp_all)⟩))
  rw [if_neg hx26] at h
  (simp only [Except.ok.injEq, Prod.mk.injEq] at h; obtain ⟨hf, ha⟩ := h; subst hf; subst ha; first | exact Or.inl ⟨rfl, rfl⟩ | exact Or.inr (Or.inl rfl) | exact Or.inr (Or.inr ⟨_, rfl, rfl, Or.inl rfl⟩) | exact Or.inr (Or.inr ⟨_, rfl, rfl, Or.inr (by simp_all)⟩))
/-- A flag state shaped `singleFlag k` holds exactly `k`. -/
theorem singleFlag_eq_true (k k1 : WaitKind) : singleFlag k k1 = true ↔ k1 = k := by
  by_cases h : k1 = k <;> simp [singleFlag, setFlag, clear_states, h]

/-- Clearing a flag never sets one. -/
theorem setFlag_false_subset (flags : Flags) (k k1 : WaitKind)
    (h : setFlag flags k false k1 = true) : flags k1 = true := by
  by_cases hk : k1 = k <;> simp_all [setFlag]

/-- Text dispatch only ever keeps the wait flags or clears one of them. -/
theorem on_text_flags_shape (jsonLoads : String → Option JsonVal) (flags : Flags)
    (c : Bool) (raw : String) (f : Flags) (act : TextAction)
    (h : on_text jsonLoads flags c raw = (f, act)) :
    f = flags ∨ ∃ k, f = setFlag flags k false := by
  delta on_text at h
  by_cases hy1 : flags WaitKind.waitKey = true
  · rw [if_pos hy1] at h
    (simp only [Prod.mk.injEq] at h; obtain ⟨hf, ha⟩ := h; subst hf; first | exact Or.inl rfl | exact Or.inr ⟨_, rfl⟩)
  rw [if_neg hy1] at h
  by_cases hy2 : (!c) = true
  · rw [if_pos hy2] at h
    (simp only [Prod.mk.injEq] at h; obtain ⟨hf, ha⟩ := h; subst hf; first | exact Or.inl rfl | exact Or.inr ⟨_, rfl⟩)
  rw [if_neg hy2] at h
  by_cases hy3 : flags WaitKind.waitAddAccounts = true
  · rw [if_pos hy3] at h
    (simp only [Prod.mk.injEq] at h; obtain ⟨hf, ha⟩ := h; subst hf; first | exact Or.inl rfl | exact Or.inr ⟨_, rfl⟩)
  rw [if_neg hy3] at h
  by_cases hy4 : flags WaitKind.waitDelAccounts = true
  · rw [if_pos hy4] at h
    (simp only [Prod.mk.injEq] at h; obtain ⟨hf, ha⟩ := h; subst hf; first | exact Or.inl rfl | exact Or.inr ⟨_, rfl⟩)
  rw [if_neg hy4] at h
  by_cases hy5 : flags WaitKind.waitEnAccounts = true
  · rw [if_pos hy5] at h
    (simp only [Prod.mk.injEq] at h; obtain ⟨hf, ha⟩ := h; subst hf; first | exact Or.inl rfl | exact Or.inr ⟨_, rfl⟩)
  rw [if_neg hy5] at h
  by_cases hy6 : flags WaitKind.waitDisAccounts = true
  · rw [if_pos hy6] at h
    (simp only [Prod.mk.injEq] at h; obtain ⟨hf, ha⟩ := h; subst hf; first | exact Or.inl rfl | exact Or.inr ⟨_, rfl⟩)
  rw [if_neg hy6] at h
  by_cases hy7 : flags WaitKind.waitChPass = true
  · rw [if_pos hy7] at h
    (simp only [Prod.mk.injEq] at h; obtain ⟨hf, ha⟩ := h; subst hf; first | exact Or.inl rfl | exact Or.inr ⟨_, rfl⟩)
  rw [if_neg hy7] at h
  by_cases hy8 : flags WaitKind.waitChRemark = true
  · rw [if_pos hy8] at h
    (simp only [Prod.mk.injEq] at h; obtain ⟨hf, ha⟩ := h; subst hf; first | exact Or.inl rfl | exact Or.inr ⟨_, rfl⟩)
  rw [if_neg hy8] at h
  by_cases hy9 : flags WaitKind.waitChLimit = true
  · rw [if_pos hy9] at h
    (simp only [Prod.mk.injEq] at h; obtain ⟨hf, ha⟩ := h; subst hf; first | exact Or.inl rfl | exact Or.inr ⟨_, rfl⟩)
  rw [if_neg hy9] at h
  by_cases hy10 : flags WaitKind.waitFlowStart = true
  · rw [if_pos hy10] at h
    (simp only [Prod.mk.injEq] at h; obtain ⟨hf, ha⟩ := h; subst hf; first | exact Or.inl rfl | exact Or.inr ⟨_, rfl⟩)
  rw [if_neg hy10] at h
  by_cases hy11 : flags WaitKind.waitStateSearch = true
  · rw [if_pos hy11] at h
    (simp only [Prod.mk.injEq] at h; obtain ⟨hf, ha⟩ := h; subst hf; first | exact Or.inl rfl | exact Or.inr ⟨_, rfl⟩)
  rw [if_neg hy11] at h
  by_cases hy12 : flags WaitKind.waitCitySearch = true
  · rw [if_pos hy12] at h
    (simp only [Prod.mk.injEq] at h; obtain ⟨hf, ha⟩ := h; subst hf; first | exact Or.inl rfl | exact Or.inr ⟨_, rfl⟩)
  rw [if_neg hy12] at h
  by_cases hy13 : flags WaitKind.waitStaticFilter = true
  · rw [if_pos hy13] at h
    (simp only [Prod.mk.injEq] at h; obtain ⟨hf, ha⟩ := h; subst hf; first | exact Or.inl rfl | exact Or.inr ⟨_, rfl⟩)
  rw [if_neg hy13] at h
  (simp only [Prod.mk.injEq] at h; obtain ⟨hf, ha⟩ := h; subst hf; first | exact Or.inl rfl | exact Or.inr ⟨_, rfl⟩)

/-- Text dispatch never drops connectedness (only the key-saving branch
changes it, to `true`). -/
theorem updateConnText_mono (c : Bool) (act : TextAction) :
    updateConnText c act = c ∨ updateConnText c act = true := by
  cases act <;> simp [updateConnText]

/-- Every reachable session state satisfies the invariant: at most one
pending prompt, and a pending non-key prompt implies a stored
credential. -/
theorem reach_inv (jsonLoads : String → Option JsonVal) (respOf : String → PackedResp)
    (s : BotState) (h : Reach jsonLoads respOf s) : InvS s := by
  induction h with
  | init c =>
    exact ⟨fun k1 k2 h1 _ => absurd h1 (by simp [clear_states]),
           fun k hk h1 => absurd h1 (by simp [clear_states])⟩
  | btn data hs ih =>
    rename_i s'
    unfold stepBtn
    cases hb : on_btn respOf s'.flags s'.connected data with
    | error e => exact ih
    | ok p =>
      obtain ⟨f, act⟩ := p
      show InvS ⟨f, updateConnBtn s'.connected act⟩
      rcases on_btn_inv respOf s'.flags s'.connected data f act hb with
        ⟨hf, hc⟩ | hf | ⟨k, hf, hc, hk⟩
      · subst hf
        rw [hc]
        exact ih
      · subst hf
        exact ⟨fun k1 k2 h1 _ => absurd h1 (by simp [clear_states]),
               fun k1 hk1 h1 => absurd h1 (by simp [clear_states])⟩
      · subst hf
        rw [hc]
        refine ⟨fun k1 k2 h1 h2 => ?_, fun k1 hk1 h1 => ?_⟩
        · rw [(singleFlag_eq_true k k1).mp h1, (singleFlag_eq_true k k2).mp h2]
        · have hk1k := (singleFlag_eq_true k k1).mp h1
          rcases hk with hkey | hco
          · exact absurd (hk1k.trans hkey) hk1
          · exact hco
  | text raw hs ih =>
    rename_i s'
    show InvS ⟨(on_text jsonLoads s'.flags s'.connected raw).1,
      updateConnText s'.connected (on_text jsonLoads s'.flags s'.connected raw).2⟩
    have hshape := on_text_flags_shape jsonLoads s'.flags s'.connected raw
      (on_text jsonLoads s'.flags s'.connected raw).1
      (on_text jsonLoads s'.flags s'.connected raw).2 rfl
    have hconn := updateConnText_mono s'.connected
      (on_text jsonLoads s'.flags s'.connected raw).2
    have hsub : ∀ k1, (on_text jsonLoads s'.flags s'.connected raw).1 k1 = true →
        s'.flags k1 = true := by
      intro k1 h1
      rcases hshape with hf | ⟨k, hf⟩
      · rw [hf] at h1; exact h1
      · rw [hf] at h1; exact setFlag_false_subset s'.flags k k1 h1
    refine ⟨fun k1 k2 h1 h2 => ih.1 k1 k2 (hsub k1 h1) (hsub k2 h2),
            fun k1 hk1 h1 => ?_⟩
    have hcon := ih.2 k1 hk1 (hsub k1 h1)
    rcases hconn with hc | hc <;> rw [hc]
    exact hcon
  | cancel hs ih =>
    exact ⟨fun k1 k2 h1 _ => absurd h1 (by simp [stepCancel, clear_states]),
           fun k hk h1 => absurd h1 (by simp [stepCancel, clear_states])⟩

/-- With exactly the prompt `k` armed (and, unless `k` is the
connect-key prompt, a stored credential), any text message takes the
branch for `k`: the flag is consumed and the stripped text goes to the
handler for `k`. -/
theorem on_text_singleFlag (jsonLoads : String → Option JsonVal) (k : WaitKind)
    (c : Bool) (raw : String) (hc : k = .waitKey ∨ c = true) :
    on_text jsonLoads (singleFlag k) c raw
      = (clear_states, textHandler jsonLoads k (pyStrip raw)) := by
  rcases hc with hk | hk
  · subst hk
    exact Prod.ext (setFlag_singleFlag_false _) rfl
  · subst hk
    cases k <;> exact Prod.ext (setFlag_singleFlag_false _) rfl
/-- C3: in any reachable session state where the user is in
`AwaitingInput(k)` (exactly the flag `k` is set), any incoming text
message consumes the state — the wait flags end empty — and the
stripped text is dispatched to the branch for `k`, whether or not it
parses; in particular the single token `US` under the city-search
prompt yields the format-error reply (no `apiGet`/`apiPost` request)
and leaves the pending state cleared. -/
theorem awaiting_input_consumed_and_dispatched
    (jsonLoads : String → Option JsonVal) (respOf : String → PackedResp)
    (s : BotState) (k : WaitKind) (raw : String)
    (hreach : Reach jsonLoads respOf s)
    (hpending : ∀ k2, s.flags k2 = true ↔ k2 = k) :
    on_text jsonLoads s.flags s.connected raw
      = (clear_states, textHandler jsonLoads k (pyStrip raw)) ∧
    on_text jsonLoads (singleFlag .waitCitySearch) true "US"
      = (clear_states, .formatError "⚠️ Format: `country_code state` (example: `US CA`)") := by
  have hflags : s.flags = singleFlag k := by
    funext k2
    by_cases hk2 : k2 = k
    · subst hk2
      rw [(hpending k2).mpr rfl, (singleFlag_eq_true k2 k2).mpr rfl]
    · have hne : s.flags k2 ≠ true := fun hcc => hk2 ((hpending k2).mp hcc)
      have h2 : s.flags k2 = false := by revert hne; cases s.flags k2 <;> simp
      rw [h2]
      simp [singleFlag, setFlag, clear_states, hk2]
  have hc : k = .waitKey ∨ s.connected = true := by
    by_cases hkk : k = .waitKey
    · exact Or.inl hkk
    · exact Or.inr ((reach_inv jsonLoads respOf s hreach).2 k hkk
        (by rw [hflags]; exact (singleFlag_eq_true k k).mpr rfl))
  refine ⟨?_, ?_⟩
  · rw [hflags]
    exact on_text_singleFlag jsonLoads k s.connected raw hc
  · rw [on_text_singleFlag jsonLoads .waitCitySearch true "US" (Or.inr rfl)]
    rfl
/-- Witness for C3: a session that pressed the cities-search button is
in `AwaitingInput(city-search)`; the text `US CA` consumes the state
and issues the GET with `country_code=US, state=CA`, while `US` yields
the format error. -/
theorem awaiting_input_consumed_and_dispatched_witness :
    (on_text (fun _ => none) (singleFlag .waitCitySearch) true "US CA"
      = (clear_states, textHandler (fun _ => none) .waitCitySearch (pyStrip "US CA")) ∧
    on_text (fun _ => none) (singleFlag .waitCitySearch) true "US"
      = (clear_states,
          .formatError "⚠️ Format: `country_code state` (example: `US CA`)")) ∧
    textHandler (fun _ => none) .waitCitySearch (pyStrip "US CA")
      = .apiGet "/gateway/ip/dynamic-citys/search"
          [("country_code", .str "US"), ("state", .str "CA")] :=
  ⟨awaiting_input_consumed_and_dispatched (fun _ => none) (fun _ => ⟨200, .null⟩)
      ⟨singleFlag .waitCitySearch, true⟩ .waitCitySearch "US CA"
      (Reach.btn "cities_search" (Reach.init true))
      (fun k2 => singleFlag_eq_true .waitCitySearch k2),
   rfl⟩

end ClaimC3
section ClaimC5

/-- Every byte of a 4-byte encoding is a byte. -/
theorem encode4_mem_lt (n : Nat) : ∀ b ∈ encode4 n, b < 256 := by
  intro b hb
  simp only [encode4, List.mem_cons, List.mem_singleton, List.not_mem_nil, or_false] at hb
  rcases hb with h | h | h | h <;> subst h <;> exact Nat.mod_lt _ (by omega)

/-- Decoding inverts encoding below `2^32`. -/
theorem decode4_encode4 (t : Nat) (h : t < 4294967296) :
    decode4 (encode4 t) = t := by
  simp only [encode4, decode4]
  omega

/-- Byte-wise unmasking inverts byte-wise masking. -/
theorem map_unmask (key : Nat) (pt : List Nat) (hpt : ∀ b ∈ pt, b < 256) :
    (pt.map (fun b => (b + key) % 256)).map (fun b => (b + 256 - key % 256) % 256) = pt := by
  induction pt with
  | nil => rfl
  | cons a l ih =>
    simp only [List.map_cons, List.cons.injEq]
    refine ⟨?_, ih (fun b hb => hpt b (List.mem_cons_of_mem a hb))⟩
    have ha : a < 256 := hpt a (List.mem_cons_self a l)
    omega

/-- Every byte of an encrypted token is a byte. -/
theorem fernetEnc_all_lt (key nonce : Nat) (pt : List Nat) (_hpt : ∀ b ∈ pt, b < 256) :
    ∀ b ∈ fernetEnc key nonce pt, b < 256 := by
  intro b hb
  simp only [fernetEnc, List.mem_append, List.mem_cons] at hb
  rcases hb with (h | h | h) | h
  · omega
  · exact encode4_mem_lt nonce b h
  · obtain ⟨x, _, hx⟩ := List.mem_map.mp h
    subst hx
    exact Nat.mod_lt _ (by omega)
  · exact encode4_mem_lt _ b h

/-- The length of an encrypted token. -/
theorem fernetEnc_length (key nonce : Nat) (pt : List Nat) :
    (fernetEnc key nonce pt).length = pt.length + 9 := by
  simp only [fernetEnc, List.length_append, List.length_cons, List.length_map, encode4,
    List.length_nil]
  omega

/-- C5: decrypting with the key used at encryption time returns the
original plaintext bytes, whatever nonce was drawn. -/
theorem dec_enc_roundtrip (key nonce : Nat) (pt : List Nat)
    (hpt : ∀ b ∈ pt, b < 256) :
    CryptoBox.dec key (CryptoBox.enc key nonce pt) = .ok pt := by
  unfold CryptoBox.dec CryptoBox.enc fernetDec fernetEnc
  have hbl : (128 :: (encode4 nonce ++ pt.map (fun b => (b + key) % 256))).length
      = 5 + pt.length := by
    simp only [encode4, List.length_cons, List.length_append, List.length_map, List.length_nil]
    omega
  rw [if_neg ?hcond]
  case hcond =>
    intro hor
    rcases hor with hlen | hall
    · rw [List.length_append, hbl] at hlen
      simp only [encode4, List.length_cons, List.length_nil] at hlen
      omega
    · exact hall (by
        rw [List.all_eq_true]
        intro b hb
        simpa using fernetEnc_all_lt key nonce pt hpt b (by simpa [fernetEnc] using hb))
  rw [List.length_append, hbl]
  rw [List.take_left' (by simp [encode4]; omega), List.drop_left' (by simp [encode4]; omega)]
  rw [if_neg (by simp)]
  rw [if_neg ?htag]
  case htag =>
    intro hne
    exact hne (decode4_encode4 _ (Nat.mod_lt _ (by omega)))
  simp only [List.drop_succ_cons]
  rw [List.drop_left' (by simp [encode4])]
  rw [map_unmask key pt hpt]

/-- Witness for C5 at a concrete key, nonce and plaintext. -/
theorem dec_enc_roundtrip_witness :
    CryptoBox.dec 123456789 (CryptoBox.enc 123456789 987654 [104, 105, 33]) = .ok [104, 105, 33] :=
  dec_enc_roundtrip 123456789 987654 [104, 105, 33] (by decide)

end ClaimC5
section ClaimC4

/-- Indexing the left part of an append with `getD`. -/
theorem getD_append_left (l1 l2 : List Nat) (i : Nat) (h : i < l1.length) :
    (l1 ++ l2).getD i 0 = l1.getD i 0 := by
  simp [List.getD_eq_getElem?_getD, List.getElem?_append_left h]

/-- Indexing the right part of an append with `getD`. -/
theorem getD_append_right (l1 l2 : List Nat) (i : Nat) (h : l1.length ≤ i) :
    (l1 ++ l2).getD i 0 = l2.getD (i - l1.length) 0 := by
  simp [List.getD_eq_getElem?_getD, List.getElem?_append_right h]

/-- Overwriting one entry moves the list sum by the difference of the
old and new entries. -/
theorem sum_set (l : List Nat) (i v : Nat) (hi : i < l.length) :
    (l.set i v).sum + l.getD i 0 = l.sum + v := by
  induction l generalizing i with
  | nil => simp at hi
  | cons a t ih =>
    cases i with
    | zero => simp [List.sum_cons]; omega
    | succ n =>
      have hn : n < t.length := by simpa using hi
      simp only [List.set_cons_succ, List.sum_cons, List.getD_cons_succ]
      have h2 := ih n hn
      omega

/-- A value indexed below the length is a member. -/
theorem getD_mem_of_lt (l : List Nat) (i : Nat) (h : i < l.length) :
    l.getD i 0 ∈ l := by
  rw [List.getD_eq_getElem?_getD, List.getElem?_eq_getElem h]
  exact List.getElem_mem h

/-- Changing any body byte changes the keyed checksum: the summand
moves by less than the modulus. -/
theorem tagOf_set_ne (key : Nat) (body : List Nat) (i v : Nat) (hi : i < body.length)
    (ha : body.getD i 0 < 256) (hv : v < 256) (hne : v ≠ body.getD i 0) :
    tagOf key (body.set i v) ≠ tagOf key body := by
  have hs := sum_set body i v hi
  unfold tagOf
  intro h
  omega

/-- Changing any tag byte changes the decoded tag value. -/
theorem decode4_set_ne (t j v : Nat) (hj : j < 4) (hv : v < 256) (ht : t < 4294967296)
    (hne : v ≠ (encode4 t).getD j 0) :
    decode4 ((encode4 t).set j v) ≠ t := by
  unfold encode4 at hne ⊢
  interval_cases j <;>
    simp only [List.getD_cons_zero, List.getD_cons_succ, List.set_cons_zero,
      List.set_cons_succ, decode4] at hne ⊢ <;>
    omega

/-- Deciding a token of the shape body-plus-4-byte-tag: the shape
checks reduce away, leaving the version-byte and tag comparisons. -/
theorem fernetDec_reduce (key : Nat) (body tg2 : List Nat)
    (hlen5 : 5 ≤ body.length) (htg : tg2.length = 4)
    (hbytes : ∀ b ∈ body ++ tg2, b < 256) :
    fernetDec key (body ++ tg2)
      = if body.head? ≠ some 128 then .error .invalidToken
        else if decode4 tg2 ≠ tagOf key body then .error .invalidToken
        else .ok ((body.drop 5).map (fun b => (b + 256 - key % 256) % 256)) := by
  unfold fernetDec
  rw [if_neg ?hcond]
  case hcond =>
    intro hor
    rcases hor with hlen | hall
    · rw [List.length_append, htg] at hlen; omega
    · exact hall (by
        rw [List.all_eq_true]
        intro b hb
        simpa using hbytes b hb)
  rw [List.length_append, htg]
  rw [List.take_left' (by omega), List.drop_left' (by omega)]
/-- C4: flipping any byte of a token produced by `enc` makes `dec` fail
with `IntegrityError`; `dec` also fails on a different key (modulo the
tag modulus) and on a malformed (too short) token — no failure path
returns plaintext. -/
theorem tamper_detection (key key2 nonce : Nat) (pt : List Nat) (i v : Nat)
    (hpt : ∀ b ∈ pt, b < 256)
    (hi : i < (CryptoBox.enc key nonce pt).length)
    (hv : v < 256)
    (hne : v ≠ (CryptoBox.enc key nonce pt).getD i 0)
    (hk2 : key % 4294967296 ≠ key2 % 4294967296) :
    CryptoBox.dec key ((CryptoBox.enc key nonce pt).set i v) = .error .invalidToken ∧
    CryptoBox.dec key2 (CryptoBox.enc key nonce pt) = .error .invalidToken ∧
    (∀ c : List Nat, c.length < 9 → CryptoBox.dec key c = .error .invalidToken) := by
  have hbl : (128 :: (encode4 nonce ++ pt.map (fun b => (b + key) % 256))).length
      = 5 + pt.length := by
    simp only [encode4, List.length_cons, List.length_append, List.length_map, List.length_nil]
    omega
  have henc : CryptoBox.enc key nonce pt
      = (128 :: (encode4 nonce ++ pt.map (fun b => (b + key) % 256)))
        ++ encode4 (tagOf key (128 :: (encode4 nonce ++ pt.map (fun b => (b + key) % 256))))
      := rfl
  set body := 128 :: (encode4 nonce ++ pt.map (fun b => (b + key) % 256)) with hbodydef
  set tg := encode4 (tagOf key body) with htgdef
  have hbytes : ∀ b ∈ body ++ tg, b < 256 := fun b hb =>
    fernetEnc_all_lt key nonce pt hpt b hb
  have hbbytes : ∀ b ∈ body, b < 256 := fun b hb =>
    hbytes b (List.mem_append_left _ hb)
  have htglen : tg.length = 4 := rfl
  have hlen5 : 5 ≤ body.length := by omega
  have htag_lt : tagOf key body < 4294967296 := Nat.mod_lt _ (by omega)
  rw [henc] at hi hne ⊢
  rw [List.length_append, htglen] at hi
  refine ⟨?_, ?_, ?_⟩
  · -- tampering with one byte
    by_cases hcase : i < body.length
    · -- flip inside the protected body
      rw [List.set_append_left i v hcase]
      rw [getD_append_left body tg i hcase] at hne
      show fernetDec key (body.set i v ++ tg) = .error .invalidToken
      rw [fernetDec_reduce key (body.set i v) tg
        (by rw [List.length_set]; exact hlen5) htglen ?hbytes2]
      case hbytes2 =>
        intro b hb
        rcases List.mem_append.mp hb with hb2 | hb2
        · rcases List.mem_or_eq_of_mem_set hb2 with hb3 | hb3
          · exact hbbytes b hb3
          · omega
        · exact hbytes b (List.mem_append_right _ hb2)
      cases i with
      | zero =>
        rw [if_pos ?hh]
        case hh =>
          rw [hbodydef, List.set_cons_zero]
          simp only [List.head?_cons, ne_eq, Option.some.injEq]
          rw [hbodydef, List.getD_cons_zero] at hne
          omega
      | succ n =>
        rw [if_neg ?hh, if_pos ?ht]
        case hh =>
          rw [hbodydef, List.set_cons_succ]
          simp
        case ht =>
          rw [decode4_encode4 _ htag_lt]
          exact (tagOf_set_ne key body (n + 1) v hcase
            (hbbytes _ (getD_mem_of_lt body (n + 1) hcase)) hv hne).symm
    · -- flip inside the authentication tag
      have hge : body.length ≤ i := by omega
      have hj : i - body.length < 4 := by omega
      rw [List.set_append_right i v hge]
      rw [getD_append_right body tg i hge] at hne
      show fernetDec key (body ++ tg.set (i - body.length) v) = .error .invalidToken
      rw [fernetDec_reduce key body (tg.set (i - body.length) v) hlen5
        (by rw [List.length_set]; exact htglen) ?hbytes3]
      case hbytes3 =>
        intro b hb
        rcases List.mem_append.mp hb with hb2 | hb2
        · exact hbbytes b hb2
        · rcases List.mem_or_eq_of_mem_set hb2 with hb3 | hb3
          · exact hbytes b (List.mem_append_right _ hb3)
          · omega
      rw [if_neg (by rw [hbodydef]; simp), if_pos ?ht2]
      case ht2 =>
        exact decode4_set_ne (tagOf key body) (i - body.length) v hj hv htag_lt hne
  · -- decrypting with a different key
    show fernetDec key2 (body ++ tg) = .error .invalidToken
    rw [fernetDec_reduce key2 body tg hlen5 htglen hbytes]
    rw [if_neg (by rw [hbodydef]; simp), if_pos ?ht3]
    case ht3 =>
      rw [decode4_encode4 _ htag_lt]
      unfold tagOf
      intro h
      omega
  · -- malformed token
    intro c hc
    show fernetDec key c = .error .invalidToken
    unfold fernetDec
    rw [if_pos (Or.inl hc)]

/-- Witness for C4: a concrete token with its sixth byte flipped to `0`
is rejected, a different key is rejected, and the empty token is
rejected. -/
theorem tamper_detection_witness :
    CryptoBox.dec 77 ((CryptoBox.enc 77 5 [104, 105]).set 6 0) = .error .invalidToken ∧
    CryptoBox.dec 78 (CryptoBox.enc 77 5 [104, 105]) = .error .invalidToken ∧
    (∀ c : List Nat, c.length < 9 → CryptoBox.dec 77 c = .error .invalidToken) :=
  tamper_detection 77 78 5 [104, 105] 6 0 (by decide) (by decide) (by decide)
    (by decide) (by decide)

end ClaimC4
